import Mathlib

/-!
Verification development for the movie-catalog extraction pipeline
(`movie_mcp.py` and `simple_movie.py`).

The HTML documents consumed by the pipeline are shallowly embedded by the
results of the exact selector queries the code performs (a node that the
code queries is a field holding the node's text, attribute values, or the
relevant children).  Python exceptions are modelled with `Except`; the
top-level `try/except` of each public operation turns the fallible body
into a total function, exactly as in the source.  Python `dict`s are
modelled as insertion-ordered association lists with update-in-place
semantics.  Python strings are modelled as `String` with the operations
(`strip`, `split`, `in`, indexing) defined over the character list.
-/

/-! ## Python string primitives -/

/-- Whitespace as stripped by Python `str.strip()` (ASCII subset plus
vertical tab and form feed, the cases that occur in practice). -/
def pyWs (c : Char) : Bool :=
  c.isWhitespace || c = Char.ofNat 11 || c = Char.ofNat 12

/-- `str.strip()` on a character list. -/
def pyStripList (cs : List Char) : List Char :=
  ((cs.dropWhile pyWs).reverse.dropWhile pyWs).reverse

/-- Python `str.strip()`. -/
def pyStrip (s : String) : String :=
  String.mk (pyStripList s.toList)

/-- Python `c in s` for a single character. -/
def pyContains (s : String) (c : Char) : Bool :=
  s.toList.contains c

/-- The part of `s` before the first colon, as in `s.split(":", 1)[0]`. -/
def pyBeforeColon (s : String) : String :=
  String.mk (s.toList.takeWhile (fun c => c ≠ ':'))

/-- The part of `s` after the first colon, as in `s.split(":", 1)[1]`. -/
def pyAfterColon (s : String) : String :=
  String.mk ((s.toList.dropWhile (fun c => c ≠ ':')).drop 1)

/-- Python `str.split(sep)` for a one-character separator. -/
def splitOnChar (c : Char) : List Char → List (List Char)
  | [] => [[]]
  | x :: xs =>
    let r := splitOnChar c xs
    if x = c then [] :: r
    else
      match r with
      | [] => [[x]]
      | h :: t => (x :: h) :: t

/-- Python `s.split("\n")`. -/
def pySplitLines (s : String) : List String :=
  (splitOnChar '\n' s.toList).map String.mk

/-- Python `" / ".join(l)`. -/
def joinSlash (l : List String) : String :=
  String.intercalate " / " l

/-! ## Python dict (insertion-ordered, update in place) -/

/-- `d[k] = v` on an insertion-ordered association list: replaces the value
in place when the key exists, appends otherwise — Python dict semantics. -/
def dictSet {α : Type} (d : List (String × α)) (k : String) (v : α) :
    List (String × α) :=
  match d with
  | [] => [(k, v)]
  | (k', v') :: rest =>
    if k' = k then (k, v) :: rest else (k', v') :: dictSet rest k v

/-- `d.get(k)` on an association list. -/
def dictGet {α : Type} (d : List (String × α)) (k : String) : Option α :=
  match d with
  | [] => none
  | (k', v) :: rest => if k' = k then some v else dictGet rest k

/-! ## Detail-page document model

A detail document is embedded by the results of the selector queries made
by `get_movie_detail`: `h1 span`, `.rating_num`, `.rating_people span`,
the `#info` container (its text content plus, for `simple_movie.py`, the
role label spans and their following sibling), the `v:genre` spans, the
`v:summary` node and the `#mainpic img` node. -/

/-- A `span` node as used for the role-override step: its `class`
attribute (absent or a list of class names) and the raw texts of its
`a` descendants. -/
structure SpanNode where
  classAttr : Option (List String)
  anchors : List String
deriving DecidableEq

/-- The result of `info_section.find("span", string=role)` together with
`find_next_sibling("span")`. -/
structure RoleSpan where
  nextSpan : Option SpanNode
deriving DecidableEq

/-- The `#info` container: its text content, and the role label spans
found inside it (keyed by the role string). -/
structure InfoSec where
  text : String
  roles : List (String × RoleSpan)
deriving DecidableEq

/-- The `#mainpic img` node: its `src` attribute, possibly absent
(absence makes the subscript access raise `KeyError`). -/
structure PosterImg where
  src : Option String
deriving DecidableEq

/-- A detail document, embedded by its selector query results.  Each
`Option` field is `none` when the corresponding node is absent; a present
field carries the node's raw text (the parsers apply `strip`). -/
structure DetailDoc where
  h1span : Option String
  ratingNum : Option String
  ratingPeople : Option String
  infoSection : Option InfoSec
  genres : List String
  summary : Option String
  poster : Option PosterImg
deriving DecidableEq

/-- The movie-info dictionary: values are strings or Python `None`
(the poster link may be `None`). -/
abbrev Dict := List (String × Option String)

/-! ## Attribute block (step 4 of the detail parsers)

`for item in info_section.get_text().split("\n"): item = item.strip();
if ":" in item: key, value = item.split(":", 1); ... if key and value:
info[key] = value`. -/

/-- The key/value pair contributed by one line of the `#info` text, if
any: the line is stripped, must contain a colon, is split on the first
colon, both halves are stripped, and both must be non-empty. -/
def lineKV (line : String) : Option (String × String) :=
  let item := pyStrip line
  if pyContains item ':' then
    let key := pyStrip (pyBeforeColon item)
    let value := pyStrip (pyAfterColon item)
    if key ≠ "" ∧ value ≠ "" then some (key, value) else none
  else none

/-- Processing of one line of the `#info` text content. -/
def applyAttrLine (d : Dict) (line : String) : Dict :=
  match lineKV line with
  | some (k, v) => dictSet d k (some v)
  | none => d

/-- The whole attribute-block step: split the `#info` text on line breaks
and process each line. -/
def applyInfoSection (d : Dict) (text : String) : Dict :=
  (pySplitLines text).foldl applyAttrLine d

/-- The pairs the attribute-block step adds for a given `#info` text, in
document order. -/
def attrPairs (text : String) : List (String × String) :=
  (pySplitLines text).filterMap lineKV

/-! ## Role-override step (step 5, `simple_movie.py` only) -/

/-- `info_section.find("span", string=role)`. -/
def lookupRole (roles : List (String × RoleSpan)) (role : String) :
    Option RoleSpan :=
  (roles.find? (fun p => p.1 = role)).map (fun p => p.2)

/-- One iteration of the role loop: if the role label span exists, its
next sibling `span` exists and has class list exactly `["attrs"]`, set
the role's entry to the linked names joined with `" / "`. -/
def applyRole (roles : List (String × RoleSpan)) (d : Dict) (role : String) :
    Dict :=
  match lookupRole roles role with
  | none => d
  | some rs =>
    match rs.nextSpan with
    | none => d
    | some sp =>
      if sp.classAttr = some ["attrs"] then
        dictSet d role (some (joinSlash (sp.anchors.map pyStrip)))
      else d

/-- The role-override loop over director, writer and cast. -/
def roleOverrides (d : Dict) (roles : List (String × RoleSpan)) : Dict :=
  (["导演", "编剧", "主演"] : List String).foldl (applyRole roles) d

/-! ## Detail parsers -/

/-- The initial info dict of both detail parsers: identifier plus the
three selector-with-default fields. -/
def initialInfo (douban_id : String) (doc : DetailDoc) : Dict :=
  [("douban_id", some douban_id),
   ("title", some (match doc.h1span with
     | some t => pyStrip t
     | none => "未知标题")),
   ("rating", some (match doc.ratingNum with
     | some t => pyStrip t
     | none => "无评分")),
   ("votes", some (match doc.ratingPeople with
     | some t => pyStrip t
     | none => "0"))]

/-- Steps 6–8 shared by both parsers: genre join, synopsis default,
poster link (whose subscript access can raise `KeyError`, surfaced as
the Python message `'src'`). -/
def finishDetail (d : Dict) (doc : DetailDoc) : Except String Dict :=
  let d1 := if doc.genres ≠ [] then
      dictSet d "类型" (some (joinSlash (doc.genres.map pyStrip)))
    else d
  let d2 := dictSet d1 "简介" (some (match doc.summary with
    | some s => pyStrip s
    | none => "无简介"))
  match doc.poster with
  | none => Except.ok (dictSet d2 "海报链接" none)
  | some img =>
    match img.src with
    | some s => Except.ok (dictSet d2 "海报链接" (some s))
    | none => Except.error "'src'"

/-- The `movie_mcp.py` detail parse: initial fields, attribute block,
then genre/synopsis/poster. -/
def parseDetailInfo (douban_id : String) (doc : DetailDoc) :
    Except String Dict :=
  let info0 := initialInfo douban_id doc
  let info1 := match doc.infoSection with
    | some sec => applyInfoSection info0 sec.text
    | none => info0
  finishDetail info1 doc

/-- The `simple_movie.py` detail parse: same as `parseDetailInfo` plus
the role-override step inside the `#info` branch. -/
def parseSimpleDetailInfo (douban_id : String) (doc : DetailDoc) :
    Except String Dict :=
  let info0 := initialInfo douban_id doc
  let info1 := match doc.infoSection with
    | some sec => roleOverrides (applyInfoSection info0 sec.text) sec.roles
    | none => info0
  finishDetail info1 doc

/-! ## Retry wrapper (`retry_on_failure`)

The decorator wraps an `async` call; the underlying call is embedded as a
function from the attempt index (0-based) to its outcome.  The trace
records the wrapper's observable behaviour: the final result (`ok none`
models falling off the loop and returning Python `None`, which happens
only for `max_retries = 0`), the number of attempts performed, and the
list of inter-attempt delays slept. -/

structure RetryTrace (E A : Type) where
  result : Except E (Option A)
  attempts : Nat
  sleeps : List Nat

/-- The `for i in range(max_retries)` loop: try the call; on success
return; on failure re-raise if this was the last attempt, else sleep
`delay` and continue. -/
def retryLoop {E A : Type} (f : Nat → Except E A) (maxRetries delay : Nat) :
    Nat → Nat → RetryTrace E A
  | _, 0 => ⟨Except.ok none, 0, []⟩
  | i, fuel + 1 =>
    match f i with
    | Except.ok a => ⟨Except.ok (some a), 1, []⟩
    | Except.error e =>
      if i = maxRetries - 1 then ⟨Except.error e, 1, []⟩
      else
        let t := retryLoop f maxRetries delay (i + 1) fuel
        ⟨t.result, t.attempts + 1, delay :: t.sleeps⟩

/-- `retry_on_failure(max_retries, delay)` applied to a call `f`. -/
def retry_on_failure {E A : Type} (f : Nat → Except E A)
    (maxRetries delay : Nat) : RetryTrace E A :=
  retryLoop f maxRetries delay 0 maxRetries

/-! ## Theme inference (`analyze_movie`, lines 191–226) -/

/-- The fixed genre → themes lookup table. -/
def genre_themes : List (String × List String) :=
  [("剧情", ["故事性", "人物塑造", "情节发展"]),
   ("喜剧", ["幽默感", "笑点", "欢乐氛围"]),
   ("动作", ["动作场面", "视觉效果", "刺激感"]),
   ("爱情", ["感情线", "浪漫元素", "人物关系"]),
   ("科幻", ["科技元素", "未来世界", "想象力"]),
   ("动画", ["动画效果", "角色设计", "视觉风格"]),
   ("悬疑", ["推理元素", "剧情转折", "悬念设置"]),
   ("惊悚", ["紧张氛围", "恐怖元素", "心理描写"]),
   ("恐怖", ["恐怖氛围", "惊吓元素", "心理恐惧"]),
   ("犯罪", ["犯罪元素", "社会问题", "人性探讨"]),
   ("奇幻", ["奇幻元素", "想象力", "世界观"]),
   ("冒险", ["冒险元素", "探索精神", "刺激感"]),
   ("灾难", ["灾难场景", "人性考验", "生存主题"]),
   ("音乐", ["音乐元素", "艺术表现", "情感表达"]),
   ("历史", ["历史背景", "时代特征", "文化内涵"]),
   ("战争", ["战争场面", "历史背景", "人性探讨"]),
   ("传记", ["人物生平", "历史背景", "人物塑造"]),
   ("运动", ["体育精神", "竞技元素", "团队合作"]),
   ("纪录片", ["真实记录", "社会观察", "知识普及"])]

/-- `genre_themes[genre]` when present, `[]` otherwise (the loop body
`if genre in genre_themes: themes.extend(...)`). -/
def themeLookup (g : String) : List String :=
  ((genre_themes.find? (fun p => p.1 = g)).map (fun p => p.2)).getD []

/-- The theme accumulation loop over the genre list. -/
def collectThemes (genres : List String) : List String :=
  genres.foldl (fun acc g => acc ++ themeLookup g) []

/-- `list(set(themes))`: the deduplicated, unordered theme collection. -/
def inferThemes (genres : List String) : Finset String :=
  (collectThemes genres).toFinset

/-! ## Comment parser (`get_movie_comments`) -/

/-- The `.rating` node inside one comment item: its `class` attribute
(`none` models a missing attribute, raising on subscript access). -/
structure RatingNode where
  classAttr : Option (List String)
deriving DecidableEq

/-- One `.comment-item` node, embedded by the per-item query results. -/
structure CommentItem where
  infoA : Option String
  ratingNode : Option RatingNode
  content : Option String
  ctime : Option String
deriving DecidableEq

/-- One extracted comment record. -/
structure CommentRec where
  author : String
  score : String
  content : String
  ctime : String
deriving DecidableEq

/-- The per-item extraction of `get_movie_comments`: author text, score
from `rating["class"][0][-2]` (default when the `.rating` node is
absent), content and timestamp; any failed step raises (and the caller
skips the item). -/
def parseCommentItem (it : CommentItem) : Except Unit CommentRec := do
  let author ← match it.infoA with
    | some a => pure (pyStrip a)
    | none => Except.error ()
  let score ← match it.ratingNode with
    | none => pure "无评分"
    | some rn =>
      match rn.classAttr with
      | none => Except.error ()
      | some cls =>
        match cls with
        | [] => Except.error ()
        | c0 :: _ =>
          match c0.toList.reverse with
          | _ :: ch :: _ => pure (String.mk [ch])
          | _ => Except.error ()
  let content ← match it.content with
    | some c => pure (pyStrip c)
    | none => Except.error ()
  let ctime ← match it.ctime with
    | some t => pure (pyStrip t)
    | none => Except.error ()
  pure ⟨author, score, content, ctime⟩

/-- The loop body shared by the comment and recommendation parsers:
append the extracted record on success, skip the item on failure. -/
def appendOk {β : Type} (acc : List β) (r : Except Unit β) : List β :=
  match r with
  | Except.ok c => acc ++ [c]
  | Except.error _ => acc

/-- The comment loop: slice to `limit`, then append each item that
extracts successfully, skipping the ones that raise. -/
def parseComments (items : List CommentItem) (limit : Nat) :
    List CommentRec :=
  (items.take limit).foldl (fun acc it => appendOk acc (parseCommentItem it)) []

/-! ## Recommendation parser (`get_movie_recommendations`) -/

/-- The first `a` anchor of one `.recommendations-bd dl` item. -/
structure RecAnchor where
  text : String
  href : Option String
deriving DecidableEq

/-- One recommendation item node. -/
structure RecItem where
  anchor : Option RecAnchor
  ratingNums : Option String
deriving DecidableEq

/-- One extracted recommendation stub. -/
structure RecStub where
  title : String
  douban_id : String
  rating : String
deriving DecidableEq

/-- The per-item extraction: anchor text, `href` attribute, identifier
`link.split("/")[-2]`, and rating with default; failed steps raise. -/
def parseRecItem (it : RecItem) : Except Unit RecStub :=
  match it.anchor with
  | none => Except.error ()
  | some a =>
    match a.href with
    | none => Except.error ()
    | some link =>
      match (splitOnChar '/' link.toList).reverse with
      | _ :: seg :: _ =>
        Except.ok ⟨pyStrip a.text, String.mk seg,
          match it.ratingNums with
          | some r => pyStrip r
          | none => "无评分"⟩
      | _ => Except.error ()

/-- The recommendation loop: slice to `limit`, append successful items,
skip raising ones. -/
def parseRecommendations (items : List RecItem) (limit : Nat) :
    List RecStub :=
  (items.take limit).foldl (fun acc it => appendOk acc (parseRecItem it)) []

/-! ## Public operations

Each operation takes the outcome of its HTTP fetch (already including
`raise_for_status` and, for search, `resp.json()`) as an `Except` value;
the body may raise, and the top-level `try/except` of the source turns it
into a total function returning the documented error encoding. -/

/-- One element of the search suggestion payload; `title` and `id` are
accessed with `item[...]` (raising `KeyError` when absent), the rest with
`item.get(...)` defaults. -/
structure SearchItem where
  title : Option String
  id : Option String
  year : Option String
  sub_title : Option String
  itemType : Option String
deriving DecidableEq

/-- One formatted search result dict. -/
structure SearchResult where
  title : String
  year : String
  douban_id : String
  subtitle : String
  itemType : String
deriving DecidableEq

/-- The per-item construction inside the search loop. -/
def searchItemResult (it : SearchItem) : Except String SearchResult := do
  let t ← match it.title with
    | some t => pure t
    | none => Except.error "'title'"
  let i ← match it.id with
    | some i => pure i
    | none => Except.error "'id'"
  pure ⟨t, it.year.getD "", i, it.sub_title.getD "", it.itemType.getD "movie"⟩

/-- The numbered search listing. -/
def formatSearch (results : List SearchResult) : String :=
  "搜索结果：\n\n" ++ String.join ((results.enumFrom 1).map (fun p =>
    toString p.1 ++ ". " ++ p.2.title ++ " (" ++ p.2.year ++ ")\n" ++
    "   ID: " ++ p.2.douban_id ++ "\n" ++
    (if p.2.subtitle ≠ "" then "   副标题: " ++ p.2.subtitle ++ "\n" else "") ++
    "\n"))

/-- `search_movies`: fetch, build at most `limit` result dicts, format;
all failures are caught and returned as an explanatory string. -/
def search_movies (keyword : String) (limit : Nat)
    (fetchRes : Except String (List SearchItem)) : String :=
  match (do
    let data ← fetchRes
    let results ← (data.take limit).mapM searchItemResult
    pure results : Except String (List SearchResult)) with
  | Except.error e => "搜索电影时出错: " ++ e
  | Except.ok results =>
    if results ≠ [] then formatSearch results
    else "未找到与\"" ++ keyword ++ "\"相关的电影"

/-- Printing of a dict value in an f-string (`None` prints as `None`). -/
def fmtVal : Option String → String
  | some s => s
  | none => "None"

/-- `info[k]` for a key known to be present (the formatted header keys
are always set by the parser before formatting). -/
def pyGetItem (d : Dict) (k : String) : Option String :=
  (dictGet d k).getD none

/-- The formatted detail listing of `movie_mcp.get_movie_detail`. -/
def formatDetail (info : Dict) : String :=
  "电影详情：\n\n" ++
  "标题: " ++ fmtVal (pyGetItem info "title") ++ "\n" ++
  "评分: " ++ fmtVal (pyGetItem info "rating") ++ " (" ++
    fmtVal (pyGetItem info "votes") ++ "人评价)\n" ++
  String.join (info.filterMap (fun p =>
    if p.1 ∈ (["title", "rating", "votes", "douban_id"] : List String)
    then none
    else some (p.1 ++ ": " ++ fmtVal p.2 ++ "\n")))

/-- `movie_mcp.get_movie_detail`: fetch, parse, format; any failure
(including a total fetch failure) is returned as an explanatory string. -/
def get_movie_detail (douban_id : String)
    (fetchRes : Except String DetailDoc) : String :=
  match (do
    let doc ← fetchRes
    let info ← parseDetailInfo douban_id doc
    pure (formatDetail info) : Except String String) with
  | Except.ok s => s
  | Except.error e => "获取电影详情时出错: " ++ e

/-- `simple_movie.get_movie_detail`: fetch and parse, returning the info
dict; a failure is returned as the payload `{"error": str(e)}`. -/
def simple_get_movie_detail (douban_id : String)
    (fetchRes : Except String DetailDoc) : Dict :=
  match (do
    let doc ← fetchRes
    parseSimpleDetailInfo douban_id doc : Except String Dict) with
  | Except.ok info => info
  | Except.error e => [("error", some e)]

/-- The line-splitting re-parse used by `analyze_movie` and
`save_movie_info` on the formatted detail text (first-colon split, both
halves stripped, no emptiness check). -/
def lineDict (s : String) : List (String × String) :=
  (pySplitLines s).foldl (fun d line =>
    if pyContains line ':' then
      dictSet d (pyStrip (pyBeforeColon line)) (pyStrip (pyAfterColon line))
    else d) []

/-- The fixed instructional message of the analysis payload. -/
def analysisMessage : String :=
  "请根据电影信息生成一条专业的影评，注意以下要点：\n1. 分析电影的类型特点和主题表现\n2. 评价演员表演和导演手法\n3. 讨论电影的社会意义和艺术价值\n4. 给出客观的评分建议"

/-- The analysis payload of `analyze_movie` (dict keys `douban_id`,
`基本信息`, `类型`, `主题`, `评分`, `评价人数`, `message`). -/
structure AnalysisResult where
  douban_id : String
  basicInfo : List (String × String)
  genres : List String
  themes : Finset String
  rating : String
  votes : String
  message : String

/-- `analyze_movie`: re-parse the formatted detail text, split the genre
value on `" / "`, infer themes, and return the payload (its body is
total, so the `except` branch returning an `error` payload is never
taken). -/
def analyze_movie (douban_id : String)
    (fetchRes : Except String DetailDoc) : AnalysisResult :=
  let detail_result := get_movie_detail douban_id fetchRes
  let info := lineDict detail_result
  let genres := ((dictGet info "类型").getD "").splitOn " / "
  { douban_id := douban_id
    basicInfo := info
    genres := genres
    themes := inferThemes genres
    rating := (dictGet info "评分").getD "无评分"
    votes := (dictGet info "评价人数").getD "0"
    message := analysisMessage }

/-- The numbered comment listing. -/
def formatComments (comments : List CommentRec) : String :=
  "电影评论：\n\n" ++ String.join ((comments.enumFrom 1).map (fun p =>
    toString p.1 ++ ". " ++ p.2.author ++ " (评分: " ++ p.2.score ++ ")\n" ++
    "   时间: " ++ p.2.ctime ++ "\n" ++
    "   内容: " ++ p.2.content ++ "\n\n"))

/-- `get_movie_comments`: fetch, extract at most `limit` comments
(skipping malformed items), format; failures return an explanatory
string. -/
def get_movie_comments (douban_id : String) (limit : Nat)
    (fetchRes : Except String (List CommentItem)) : String :=
  match fetchRes with
  | Except.error e => "获取电影评论时出错: " ++ e
  | Except.ok items =>
    let comments := parseComments items limit
    if comments ≠ [] then formatComments comments
    else "未找到任何评论"

/-- The numbered recommendation listing. -/
def formatRecs (recs : List RecStub) : String :=
  "推荐电影：\n\n" ++ String.join ((recs.enumFrom 1).map (fun p =>
    toString p.1 ++ ". " ++ p.2.title ++ "\n" ++
    "   评分: " ++ p.2.rating ++ "\n" ++
    "   ID: " ++ p.2.douban_id ++ "\n\n"))

/-- `get_movie_recommendations`: fetch, extract at most `limit` stubs
(skipping malformed items), format; failures return an explanatory
string. -/
def get_movie_recommendations (douban_id : String) (limit : Nat)
    (fetchRes : Except String (List RecItem)) : String :=
  match fetchRes with
  | Except.error e => "获取电影推荐时出错: " ++ e
  | Except.ok items =>
    let recs := parseRecommendations items limit
    if recs ≠ [] then formatRecs recs
    else "未找到任何推荐电影"

/-- The output filename pattern of `save_movie_info`; `ts` is the
process-wide `TIMESTAMP` captured once at startup. -/
def saveFilename (douban_id ts : String) : String :=
  "movie_" ++ douban_id ++ "_" ++ ts ++ ".json"

/-- `save_movie_info`: gather detail, comments and recommendations (each
already catching its own failures), write the aggregate (the write
outcome is the `persist` argument), and return the confirmation or the
explanatory error string. -/
def save_movie_info (douban_id ts : String)
    (fetchDetail : Except String DetailDoc)
    (fetchComments : Except String (List CommentItem))
    (fetchRecs : Except String (List RecItem))
    (persist : Except String Unit) : String :=
  let _detail := get_movie_detail douban_id fetchDetail
  let _info := lineDict _detail
  let _comments := get_movie_comments douban_id 5 fetchComments
  let _recs := get_movie_recommendations douban_id 5 fetchRecs
  match persist with
  | Except.error e => "保存电影信息时出错: " ++ e
  | Except.ok _ => "电影信息已保存到文件: " ++ saveFilename douban_id ts

/-! ## JSON persistence (`save_to_json` / `load_from_json`)

`json.dump(data, f, ensure_ascii=False, indent=2)` and `json.load(f)`,
modelled for the value sublanguage the artifact uses (strings and
objects).  Objects are a mutual inductive to keep recursion structural. -/

mutual
inductive Jval where
  | str : String → Jval
  | obj : JObj → Jval

inductive JObj where
  | nil : JObj
  | cons : String → Jval → JObj → JObj
end

mutual
/-- Size measure used as parser fuel. -/
def Jval.size : Jval → Nat
  | .str _ => 1
  | .obj o => o.size + 1

def JObj.size : JObj → Nat
  | .nil => 1
  | .cons _ v r => v.size + r.size + 1
end

/-- Lowercase hexadecimal digit, as emitted in `\u00xx` escapes. -/
def hexDigit (n : Nat) : Char :=
  if n < 10 then Char.ofNat (48 + n) else Char.ofNat (87 + n)

/-- The serialization of one string character with `ensure_ascii=False`:
only the quote, the backslash and control characters are escaped;
everything else (in particular multi-byte characters) is kept as is. -/
def escChar (c : Char) : List Char :=
  if c = '"' then ['\\', '"']
  else if c = '\\' then ['\\', '\\']
  else if c = '\n' then ['\\', 'n']
  else if c = '\t' then ['\\', 't']
  else if c = '\r' then ['\\', 'r']
  else if c.toNat = 8 then ['\\', 'b']
  else if c.toNat = 12 then ['\\', 'f']
  else if c.toNat < 32 then
    ['\\', 'u', '0', '0', hexDigit (c.toNat / 16), hexDigit (c.toNat % 16)]
  else [c]

/-- JSON string serialization (quotes around the escaped characters). -/
def serStr (s : String) : List Char :=
  '"' :: (s.toList.flatMap escChar ++ ['"'])

/-- `n` spaces of indentation. -/
def nspaces (n : Nat) : List Char :=
  List.replicate n ' '

mutual
/-- Serialization with `indent=2`: `ind` is the indentation of the line
the value starts on; an empty object prints as `{}`; a non-empty object
opens a line-broken member list indented two further and closes at
`ind`. -/
def serVal (ind : Nat) : Jval → List Char
  | .str s => serStr s
  | .obj .nil => ['{', '}']
  | .obj (.cons k v r) =>
    '{' :: '\n' :: (serItems (ind + 2) k v r ++ '\n' :: (nspaces ind ++ ['}']))
  termination_by v => v.size
  decreasing_by simp [Jval.size, JObj.size]; omega

/-- Member-list serialization: each member on its own line at `ind`,
key serialized as a string, `": "` separator, members joined by
`serTail`. -/
def serItems (ind : Nat) (k : String) (v : Jval) (r : JObj) : List Char :=
  nspaces ind ++ (serStr k ++ (':' :: ' ' :: (serVal ind v ++ serTail ind r)))
  termination_by v.size + r.size
  decreasing_by
  · cases r <;> simp [Jval.size, JObj.size] <;> omega
  · cases v <;> simp [Jval.size, JObj.size] <;> omega

/-- The member separator: nothing after the last member, `,` and a line
break before each further member. -/
def serTail (ind : Nat) : JObj → List Char
  | .nil => []
  | .cons k2 v2 r2 => ',' :: '\n' :: serItems ind k2 v2 r2
  termination_by r => r.size
  decreasing_by simp [Jval.size, JObj.size] <;> omega
end

/-- The file content written by `save_to_json`. -/
def jserialize (v : Jval) : String :=
  String.mk (serVal 0 v)

/-- JSON whitespace accepted between tokens by the loader. -/
def wsChar (c : Char) : Bool :=
  c = ' ' || c = '\t' || c = '\n' || c = '\r'

/-- Skip inter-token whitespace. -/
def skipWs (cs : List Char) : List Char :=
  cs.dropWhile wsChar

/-- Value of one hexadecimal digit. -/
def hexVal (c : Char) : Option Nat :=
  if '0' ≤ c ∧ c ≤ '9' then some (c.toNat - 48)
  else if 'a' ≤ c ∧ c ≤ 'f' then some (c.toNat - 87)
  else if 'A' ≤ c ∧ c ≤ 'F' then some (c.toNat - 55)
  else none

/-- The character denoted by a single-character escape. -/
def unescChar (c : Char) : Option Char :=
  if c = '"' then some '"'
  else if c = '\\' then some '\\'
  else if c = '/' then some '/'
  else if c = 'b' then some (Char.ofNat 8)
  else if c = 'f' then some (Char.ofNat 12)
  else if c = 'n' then some '\n'
  else if c = 'r' then some '\r'
  else if c = 't' then some '\t'
  else none

mutual
/-- The loader's string scanner, positioned after the opening quote:
collects characters (reversed in `acc`) until the closing quote,
resolving escapes; raw control characters are rejected (strict mode). -/
def scanStr (acc : List Char) : List Char → Option (String × List Char)
  | [] => none
  | c :: rest =>
    if c = '"' then some (String.mk acc.reverse, rest)
    else if c = '\\' then scanEsc acc rest
    else if 32 ≤ c.toNat then scanStr (c :: acc) rest
    else none
  termination_by cs => cs.length

/-- Resolution of one escape sequence (after the backslash). -/
def scanEsc (acc : List Char) : List Char → Option (String × List Char)
  | [] => none
  | e :: rest2 =>
    if e = 'u' then scanHex acc rest2
    else
      match unescChar e with
      | some c2 => scanStr (c2 :: acc) rest2
      | none => none
  termination_by cs => cs.length
  decreasing_by all_goals simp <;> omega

/-- Resolution of a `\uXXXX` escape (after the `u`): four hexadecimal
digits denoting a scalar value below the surrogate range. -/
def scanHex (acc : List Char) : List Char → Option (String × List Char)
  | h1 :: h2 :: h3 :: h4 :: rest3 =>
    match hexVal h1, hexVal h2, hexVal h3, hexVal h4 with
    | some a, some b, some c2, some d2 =>
      if ((a * 16 + b) * 16 + c2) * 16 + d2 < 55296 then
        scanStr (Char.ofNat (((a * 16 + b) * 16 + c2) * 16 + d2) :: acc) rest3
      else none
    | _, _, _, _ => none
  | _ => none
  termination_by cs => cs.length
  decreasing_by simp; omega
end

mutual
/-- The loader for the string/object sublanguage; `fuel` bounds the
nesting and makes the recursion structural. -/
def parseVal : Nat → List Char → Option (Jval × List Char)
  | 0, _ => none
  | fuel + 1, cs =>
    match skipWs cs with
    | '"' :: rest => (scanStr [] rest).map (fun p => (Jval.str p.1, p.2))
    | '{' :: rest =>
      match skipWs rest with
      | '}' :: r2 => some (Jval.obj JObj.nil, r2)
      | cs2 => (parseMembers fuel cs2).map (fun p => (Jval.obj p.1, p.2))
    | _ => none

/-- Member-list loader: key string, `:`, value, then either `,` and more
members or the closing brace. -/
def parseMembers : Nat → List Char → Option (JObj × List Char)
  | 0, _ => none
  | fuel + 1, cs =>
    match skipWs cs with
    | '"' :: rest =>
      match scanStr [] rest with
      | none => none
      | some (k, r1) =>
        match skipWs r1 with
        | ':' :: r2 =>
          match parseVal fuel r2 with
          | none => none
          | some (v, r3) =>
            match skipWs r3 with
            | ',' :: r4 =>
              (parseMembers fuel r4).map (fun p => (JObj.cons k v p.1, p.2))
            | '}' :: r4 => some (JObj.cons k v JObj.nil, r4)
            | _ => none
        | _ => none
    | _ => none
end

/-- The aggregate artifact built by `save_movie_info`: basic-info
mapping, the pre-formatted comment and recommendation text blocks, and
the save timestamp. -/
def movieData (info : List (String × String)) (comments recs saveTime : String) :
    Jval :=
  Jval.obj (JObj.cons "基本信息" (Jval.obj (info.foldr
      (fun p o => JObj.cons p.1 (Jval.str p.2) o) JObj.nil))
    (JObj.cons "评论" (Jval.str comments)
    (JObj.cons "推荐" (Jval.str recs)
    (JObj.cons "保存时间" (Jval.str saveTime) JObj.nil))))

/-! ## Rating analysis (`simple_movie.analyze_rating`)

Python `float()` is modelled exactly on decimal literals (binary
floating-point rounding is elided; all threshold constants are exactly
representable), with the `inf`/`nan` special forms kept as separate
variants so that their comparison behaviour matches.  A finite value is
kept as an integer significand and a power-of-ten exponent. -/

/-- An exact decimal value `num * 10 ^ exp`. -/
structure DecVal where
  num : Int
  exp : Int
deriving DecidableEq

/-- The rational denoted by a `DecVal`. -/
def DecVal.toRat (d : DecVal) : ℚ :=
  (d.num : ℚ) * (10 : ℚ) ^ d.exp

inductive PyFloat where
  | fin : DecVal → PyFloat
  | inf : PyFloat
  | ninf : PyFloat
  | nan : PyFloat
deriving DecidableEq

/-- A digit group as accepted by the float literal grammar: at least one
digit, single underscores allowed between digits.  Returns the value,
the number of digits consumed, and the rest of the input. -/
def takeDigits : List Char → Nat → Nat → Nat × Nat × List Char
  | [], acc, cnt => (acc, cnt, [])
  | c :: rest, acc, cnt =>
    if c.isDigit then takeDigits rest (acc * 10 + (c.toNat - 48)) (cnt + 1)
    else if c = '_' ∧ cnt ≠ 0 then
      match rest with
      | c2 :: rest2 =>
        if c2.isDigit then takeDigits rest2 (acc * 10 + (c2.toNat - 48)) (cnt + 1)
        else (acc, cnt, c :: rest)
      | [] => (acc, cnt, [c])
    else (acc, cnt, c :: rest)

/-- The optional exponent part, which must consume the whole rest:
shifts the decimal exponent of the value parsed so far. -/
def parseExpPart (cs : List Char) (base : DecVal) : Option DecVal :=
  match cs with
  | [] => some base
  | c :: r =>
    if c = 'e' ∨ c = 'E' then
      let p : Int × List Char := match r with
        | '+' :: r2 => ((1 : Int), r2)
        | '-' :: r2 => ((-1 : Int), r2)
        | _ => ((1 : Int), r)
      match takeDigits p.2 0 0 with
      | (ev, ec, r3) =>
        if ec = 0 ∨ r3 ≠ [] then none
        else some ⟨base.num, base.exp + p.1 * (ev : Int)⟩
    else none

/-- An unsigned decimal literal: integer digits, optional fraction,
optional exponent; at least one digit in the integer-plus-fraction
parts.  `ip.fp` with `fc` fraction digits denotes
`(ip * 10 ^ fc + fp) * 10 ^ (-fc)`. -/
def parseDecimal (cs : List Char) : Option DecVal :=
  match takeDigits cs 0 0 with
  | (ip, ic, cs1) =>
    match cs1 with
    | '.' :: r =>
      match takeDigits r 0 0 with
      | (fp, fc, cs2) =>
        if ic + fc = 0 then none
        else parseExpPart cs2 ⟨(ip * 10 ^ fc + fp : Nat), -(fc : Int)⟩
    | _ => if ic = 0 then none else parseExpPart cs1 ⟨(ip : Int), 0⟩

/-- Python `float(s)`: strip whitespace, optional sign, then either one
of the special forms `inf`/`infinity`/`nan` (case-insensitive) or a
decimal literal. -/
def pyFloatOf (s : String) : Option PyFloat :=
  let cs := pyStripList s.toList
  let p : Int × List Char := match cs with
    | '+' :: r => ((1 : Int), r)
    | '-' :: r => ((-1 : Int), r)
    | r => ((1 : Int), r)
  let low := p.2.map Char.toLower
  if low = ['i', 'n', 'f'] ∨ low = ['i', 'n', 'f', 'i', 'n', 'i', 't', 'y'] then
    some (if p.1 = 1 then PyFloat.inf else PyFloat.ninf)
  else if low = ['n', 'a', 'n'] then some PyFloat.nan
  else
    match parseDecimal p.2 with
    | some d => some (PyFloat.fin ⟨p.1 * d.num, d.exp⟩)
    | none => none

/-- `score >= q` on the float model: `inf` exceeds everything, `-inf`
nothing, and every comparison with `nan` is false. -/
def pfGe (v : PyFloat) (q : ℚ) : Bool :=
  match v with
  | PyFloat.fin x => decide (q ≤ x.toRat)
  | PyFloat.inf => true
  | PyFloat.ninf => false
  | PyFloat.nan => false

/-- The classification payload of `analyze_rating`. -/
structure RatingAnalysis where
  level : String
  description : String
  score : Option PyFloat
deriving DecidableEq

/-- `analyze_rating`: parse the score (a `ValueError` is caught and
reported as the `无法评估` payload) and classify by fixed thresholds. -/
def analyze_rating (rating : String) : RatingAnalysis :=
  match pyFloatOf rating with
  | none => ⟨"无法评估", "评分数据无效", none⟩
  | some score =>
    if pfGe score (17 / 2) then
      ⟨"优秀", "这是一部非常优秀的电影，强烈推荐观看", some score⟩
    else if pfGe score 7 then
      ⟨"良好", "这是一部不错的电影，值得一看", some score⟩
    else if pfGe score 5 then
      ⟨"一般", "这是一部普通的电影，可以看看", some score⟩
    else
      ⟨"较差", "这部电影评分较低，建议谨慎观看", some score⟩

/-! ## Helper lemmas -/

theorem dictGet_dictSet_self {α : Type} (d : List (String × α)) (k : String)
    (v : α) : dictGet (dictSet d k v) k = some v := by
  induction d with
  | nil => simp [dictSet, dictGet]
  | cons p rest ih =>
    by_cases h : p.1 = k
    · simp [dictSet, dictGet, h]
    · simp [dictSet, dictGet, h, ih]

theorem dictGet_dictSet_ne {α : Type} (d : List (String × α)) (k k' : String)
    (v : α) (h : k' ≠ k) : dictGet (dictSet d k v) k' = dictGet d k' := by
  have h2 : ¬ k = k' := fun hh => h hh.symm
  induction d with
  | nil => simp [dictSet, dictGet, h2]
  | cons p rest ih =>
    obtain ⟨k0, v0⟩ := p
    by_cases hp : k0 = k
    · subst hp
      simp [dictSet, dictGet, h2]
    · by_cases hp' : k0 = k'
      · simp [dictSet, dictGet, hp, hp', h]
      · simp [dictSet, dictGet, hp, hp', ih]

theorem applyInfoSection_get_of_absent (text : String) (d : Dict) (k : String)
    (h : ∀ p ∈ attrPairs text, p.1 ≠ k) :
    dictGet (applyInfoSection d text) k = dictGet d k := by
  have main : ∀ (lines : List String) (d : Dict),
      (∀ p ∈ lines.filterMap lineKV, p.1 ≠ k) →
      dictGet (lines.foldl applyAttrLine d) k = dictGet d k := by
    intro lines
    induction lines with
    | nil => intro d _; rfl
    | cons line rest ih =>
      intro d hl
      rw [List.foldl_cons]
      rcases hkv : lineKV line with _ | ⟨kk, vv⟩
      · rw [show applyAttrLine d line = d by simp [applyAttrLine, hkv]]
        exact ih d (fun p hp => hl p (by simp [hkv, hp]))
      · rw [show applyAttrLine d line = dictSet d kk (some vv) by
          simp [applyAttrLine, hkv]]
        have hkk : kk ≠ k := by
          have := hl (kk, vv) (by simp [hkv])
          simpa using this
        rw [ih _ (fun p hp => hl p (by simp [hkv, hp]))]
        exact dictGet_dictSet_ne d kk k _ (fun hh => hkk hh.symm)
  exact main (pySplitLines text) d h

/-- The per-item collection loop of the comment and recommendation
parsers is the `filterMap` of the per-item extraction. -/
theorem foldl_collect_eq_filterMap {α β : Type} (f : α → Except Unit β)
    (l : List α) (acc : List β) :
    l.foldl (fun a it => appendOk a (f it)) acc
      = acc ++ l.filterMap (fun it => (f it).toOption) := by
  induction l generalizing acc with
  | nil => simp
  | cons x xs ih =>
    simp only [List.foldl_cons, List.filterMap_cons]
    rcases hx : f x with e | c
    · exact ih acc
    · have h2 := ih (acc ++ [c])
      rw [List.append_assoc] at h2
      exact h2

theorem retryLoop_fail_last {E A : Type} (f : Nat → Except E A)
    (maxRetries delay i fuel : Nat) (e : E) (hfe : f i = Except.error e)
    (hlast : i = maxRetries - 1) :
    retryLoop f maxRetries delay i (fuel + 1) = ⟨Except.error e, 1, []⟩ := by
  subst hlast
  simp [retryLoop, hfe]

theorem retryLoop_fail_step {E A : Type} (f : Nat → Except E A)
    (maxRetries delay i fuel : Nat) (e : E) (hfe : f i = Except.error e)
    (hne : ¬ (i = maxRetries - 1)) :
    retryLoop f maxRetries delay i (fuel + 1) =
      ⟨(retryLoop f maxRetries delay (i + 1) fuel).result,
       (retryLoop f maxRetries delay (i + 1) fuel).attempts + 1,
       delay :: (retryLoop f maxRetries delay (i + 1) fuel).sleeps⟩ := by
  simp [retryLoop, hfe, hne]

theorem retryLoop_all_fail {E A : Type} (f : Nat → Except E A)
    (maxRetries delay : Nat) (err : Nat → E) :
    ∀ (fuel i : Nat), i + fuel = maxRetries → 1 ≤ fuel →
    (∀ j, i ≤ j → j < maxRetries → f j = Except.error (err j)) →
    retryLoop f maxRetries delay i fuel =
      ⟨Except.error (err (maxRetries - 1)), fuel,
       List.replicate (fuel - 1) delay⟩ := by
  intro fuel
  induction fuel with
  | zero => omega
  | succ n ih =>
    intro i htot _ hfail
    have hi : f i = Except.error (err i) := hfail i le_rfl (by omega)
    match n, ih with
    | 0, _ =>
      have hlast : i = maxRetries - 1 := by omega
      rw [retryLoop_fail_last f maxRetries delay i 0 _ hi hlast, hlast]
      simp
    | m + 1, ih =>
      have hnotlast : ¬ (i = maxRetries - 1) := by omega
      have hrec := ih (i + 1) (by omega) (by omega)
        (fun j hj hj' => hfail j (by omega) hj')
      rw [retryLoop_fail_step f maxRetries delay i (m + 1) _ hi hnotlast, hrec]
      simp [List.replicate_succ]

theorem collectThemes_acc (l : List String) (acc : List String) :
    l.foldl (fun a g => a ++ themeLookup g) acc = acc ++ collectThemes l := by
  induction l generalizing acc with
  | nil => simp [collectThemes]
  | cons g gs ih =>
    rw [collectThemes, List.foldl_cons, List.foldl_cons, ih, ih (([]) ++ _)]
    simp

theorem collectThemes_cons (g : String) (l : List String) :
    collectThemes (g :: l) = themeLookup g ++ collectThemes l := by
  rw [collectThemes, List.foldl_cons, collectThemes_acc]
  simp

theorem inferThemes_perm {l1 l2 : List String} (h : l1.Perm l2) :
    inferThemes l1 = inferThemes l2 := by
  induction h with
  | nil => rfl
  | cons x _ ih =>
    simp only [inferThemes, collectThemes_cons, List.toFinset_append] at *
    rw [ih]
  | swap x y l =>
    simp only [inferThemes, collectThemes_cons, List.toFinset_append]
    rw [← Finset.union_assoc, Finset.union_comm (themeLookup y).toFinset,
      Finset.union_assoc]
  | trans _ _ ih1 ih2 => exact ih1.trans ih2

/-! ## Claim theorems -/

/-- C1: every public operation (search, detail, analysis, comments,
recommendations, save) is a total function of its inputs — internal
failures are encoded as an explanatory string or a payload with an
`error` key; in particular the `simple_movie` detail parse returns an
`error`-keyed payload on a total fetch failure, and never raises. -/
theorem ops_error_encoding (e keyword douban_id ts : String) (limit : Nat)
    (fd : Except String DetailDoc) (fc : Except String (List CommentItem))
    (fr : Except String (List RecItem)) :
    search_movies keyword limit (Except.error e) = "搜索电影时出错: " ++ e ∧
    get_movie_detail douban_id (Except.error e) = "获取电影详情时出错: " ++ e ∧
    simple_get_movie_detail douban_id (Except.error e) = [("error", some e)] ∧
    dictGet (simple_get_movie_detail douban_id (Except.error e)) "error"
      = some (some e) ∧
    get_movie_comments douban_id limit (Except.error e)
      = "获取电影评论时出错: " ++ e ∧
    get_movie_recommendations douban_id limit (Except.error e)
      = "获取电影推荐时出错: " ++ e ∧
    (analyze_movie douban_id fd).message = analysisMessage ∧
    save_movie_info douban_id ts fd fc fr (Except.error e)
      = "保存电影信息时出错: " ++ e ∧
    save_movie_info douban_id ts fd fc fr (Except.ok ())
      = "电影信息已保存到文件: " ++ ("movie_" ++ douban_id ++ "_" ++ ts ++ ".json") :=
  ⟨rfl, rfl, rfl, rfl, rfl, rfl, rfl, rfl, rfl⟩

/-- C3: the retry wrapper with default limit 3 returns the successful
result after exactly 3 attempts when the call fails twice then succeeds;
when the call always fails it performs exactly `maxRetries` attempts,
sleeping the fixed delay between consecutive attempts, and re-raises the
error of the final attempt. -/
theorem retry_spec {E A : Type} (f : Nat → Except E A)
    (maxRetries delay : Nat) (hmax : 1 ≤ maxRetries) :
    (∀ (a : A) (e0 e1 : E), f 0 = Except.error e0 → f 1 = Except.error e1 →
      f 2 = Except.ok a →
      retry_on_failure f 3 delay
        = ⟨Except.ok (some a), 3, [delay, delay]⟩) ∧
    (∀ err : Nat → E, (∀ i, i < maxRetries → f i = Except.error (err i)) →
      retry_on_failure f maxRetries delay
        = ⟨Except.error (err (maxRetries - 1)), maxRetries,
           List.replicate (maxRetries - 1) delay⟩) := by
  constructor
  · intro a e0 e1 h0 h1 h2
    simp [retry_on_failure, retryLoop, h0, h1, h2]
  · intro err hfail
    have := retryLoop_all_fail f maxRetries delay err maxRetries 0
      (by omega) hmax (fun j _ hj => hfail j hj)
    simpa [retry_on_failure] using this

/-- Witness for C3 at limit 3, delay 7: a call failing twice then
returning 42, and a call failing on every attempt. -/
theorem retry_spec_witness :
    retry_on_failure
        (fun i => if i < 2 then (Except.error (toString i) : Except String Nat)
          else Except.ok 42) 3 7
      = ⟨Except.ok (some 42), 3, [7, 7]⟩ ∧
    retry_on_failure (fun i => (Except.error (toString i) : Except String Nat))
        3 7
      = ⟨Except.error (toString (3 - 1)), 3, List.replicate (3 - 1) 7⟩ := by
  constructor
  · exact (retry_spec _ 3 7 (by decide)).1 42 (toString 0) (toString 1)
      rfl rfl rfl
  · exact (retry_spec _ 3 7 (by decide)).2 toString (fun i _ => rfl)

/-- C5: theme inference is a pure function of the genre list with set
semantics: permuting the genre list yields the same theme set, a genre
absent from the fixed table contributes nothing, and the genre list
`["悬疑", "动作"]` yields exactly the six documented themes. -/
theorem inferThemes_spec (l1 l2 : List String) (g : String) (gs : List String)
    (hperm : l1.Perm l2) (habsent : ∀ p ∈ genre_themes, p.1 ≠ g) :
    inferThemes l1 = inferThemes l2 ∧
    inferThemes (g :: gs) = inferThemes gs ∧
    inferThemes ["悬疑", "动作"] =
      ({"推理元素", "剧情转折", "悬念设置", "动作场面", "视觉效果", "刺激感"} :
        Finset String) := by
  refine ⟨inferThemes_perm hperm, ?_, by decide⟩
  have hl : themeLookup g = [] := by
    rw [themeLookup, List.find?_eq_none.mpr]
    · rfl
    · intro p hp
      simpa using fun hh => habsent p hp (by simpa using hh)
  simp [inferThemes, collectThemes_cons, hl]

/-- Witness for C5: the two permuted genre lists of the documented
scenario, and the untabulated genre `西部`. -/
theorem inferThemes_spec_witness :
    inferThemes ["悬疑", "动作"] = inferThemes ["动作", "悬疑"] ∧
    inferThemes ("西部" :: ["悬疑"]) = inferThemes ["悬疑"] ∧
    inferThemes ["悬疑", "动作"] =
      ({"推理元素", "剧情转折", "悬念设置", "动作场面", "视觉效果", "刺激感"} :
        Finset String) := by
  have h := inferThemes_spec ["悬疑", "动作"] ["动作", "悬疑"] "西部" ["悬疑"]
    (by decide) (by decide)
  exact ⟨h.1, h.2.1, h.2.2⟩

theorem parseComments_eq_filterMap (its : List CommentItem) (lim : Nat) :
    parseComments its lim
      = (its.take lim).filterMap (fun it => (parseCommentItem it).toOption) := by
  rw [parseComments]
  simpa using foldl_collect_eq_filterMap parseCommentItem (its.take lim) []

theorem parseRecommendations_eq_filterMap (its : List RecItem) (lim : Nat) :
    parseRecommendations its lim
      = (its.take lim).filterMap (fun it => (parseRecItem it).toOption) := by
  rw [parseRecommendations]
  simpa using foldl_collect_eq_filterMap parseRecItem (its.take lim) []

theorem filterMap_take_forall₂ (items : List CommentItem)
    (rs : List CommentRec)
    (hwf : List.Forall₂ (fun it r => parseCommentItem it = Except.ok r) items rs) :
    ∀ n : Nat,
      (items.take n).filterMap (fun it => (parseCommentItem it).toOption)
        = rs.take n := by
  induction hwf with
  | nil => simp
  | cons h _ ih =>
    rename_i it r l₁ l₂ htl
    intro n
    cases n with
    | zero => simp
    | succ m =>
      rw [List.take_succ_cons, List.take_succ_cons, List.filterMap_cons,
        show (parseCommentItem it).toOption = some r by rw [h]; rfl, ih m]

/-- C4: the comment parser returns at most `limit` records in document
order (it is the `filterMap` of the per-item extraction over the first
`limit` items, hence a sublist of all successful extractions); a
malformed item is skipped without aborting its siblings; and a document
of 7 well-formed items with limit 5 yields exactly the first 5 records
in document order. -/
theorem comments_spec (items : List CommentItem) (limit : Nat)
    (rs : List CommentRec)
    (hwf : List.Forall₂ (fun it r => parseCommentItem it = Except.ok r) items rs)
    (hlen : items.length = 7) :
    (∀ (its : List CommentItem) (lim : Nat),
      parseComments its lim
        = (its.take lim).filterMap (fun it => (parseCommentItem it).toOption) ∧
      (parseComments its lim).length ≤ lim ∧
      List.Sublist (parseComments its lim)
        (its.filterMap (fun it => (parseCommentItem it).toOption))) ∧
    parseComments items limit = rs.take limit ∧
    parseComments items 5 = rs.take 5 ∧
    (parseComments items 5).length = 5 := by
  have hchar : ∀ (its : List CommentItem) (lim : Nat),
      parseComments its lim
        = (its.take lim).filterMap (fun it => (parseCommentItem it).toOption) :=
    parseComments_eq_filterMap
  refine ⟨fun its lim => ⟨hchar its lim, ?_, ?_⟩, ?_, ?_, ?_⟩
  · rw [hchar]
    exact le_trans (List.length_filterMap_le _ _) (List.length_take_le lim its)
  · rw [hchar]
    exact List.Sublist.filterMap _ (List.take_sublist lim its)
  · rw [hchar]
    exact filterMap_take_forall₂ items rs hwf limit
  · rw [hchar]
    exact filterMap_take_forall₂ items rs hwf 5
  · rw [hchar, filterMap_take_forall₂ items rs hwf 5, List.length_take]
    have := hwf.length_eq
    omega

/-- Witness for C4: seven concrete well-formed comment items with
limit 5 yield exactly the first five records in order. -/
theorem comments_spec_witness :
    parseComments
        [⟨some "a1", none, some "c1", some "t1"⟩,
         ⟨some "a2", none, some "c2", some "t2"⟩,
         ⟨some "a3", none, some "c3", some "t3"⟩,
         ⟨some "a4", none, some "c4", some "t4"⟩,
         ⟨some "a5", none, some "c5", some "t5"⟩,
         ⟨some "a6", none, some "c6", some "t6"⟩,
         ⟨some "a7", none, some "c7", some "t7"⟩] 5
      = [⟨"a1", "无评分", "c1", "t1"⟩, ⟨"a2", "无评分", "c2", "t2"⟩,
         ⟨"a3", "无评分", "c3", "t3"⟩, ⟨"a4", "无评分", "c4", "t4"⟩,
         ⟨"a5", "无评分", "c5", "t5"⟩] := by
  have h := comments_spec
    [⟨some "a1", none, some "c1", some "t1"⟩,
     ⟨some "a2", none, some "c2", some "t2"⟩,
     ⟨some "a3", none, some "c3", some "t3"⟩,
     ⟨some "a4", none, some "c4", some "t4"⟩,
     ⟨some "a5", none, some "c5", some "t5"⟩,
     ⟨some "a6", none, some "c6", some "t6"⟩,
     ⟨some "a7", none, some "c7", some "t7"⟩] 5
    [⟨"a1", "无评分", "c1", "t1"⟩, ⟨"a2", "无评分", "c2", "t2"⟩,
     ⟨"a3", "无评分", "c3", "t3"⟩, ⟨"a4", "无评分", "c4", "t4"⟩,
     ⟨"a5", "无评分", "c5", "t5"⟩, ⟨"a6", "无评分", "c6", "t6"⟩,
     ⟨"a7", "无评分", "c7", "t7"⟩]
    (List.Forall₂.cons rfl (List.Forall₂.cons rfl (List.Forall₂.cons rfl
      (List.Forall₂.cons rfl (List.Forall₂.cons rfl (List.Forall₂.cons rfl
        (List.Forall₂.cons rfl List.Forall₂.nil)))))))
    rfl
  exact h.2.2.1

/-- C6: the recommendation parser returns at most `limit` stubs in
document order (the `filterMap` of the per-item extraction over the
first `limit` items), the stub identifier is the second-to-last segment
of the anchor's href split on `/`, and a missing rating node defaults to
`无评分`. -/
theorem recommendations_spec (items : List RecItem) (limit : Nat)
    (it : RecItem) (t link : String) (pre : List (List Char))
    (x y : List Char)
    (hanchor : it.anchor = some ⟨t, some link⟩)
    (hsegs : splitOnChar '/' link.toList = pre ++ [x, y]) :
    (∀ (its : List RecItem) (lim : Nat),
      parseRecommendations its lim
        = (its.take lim).filterMap (fun i => (parseRecItem i).toOption) ∧
      (parseRecommendations its lim).length ≤ lim ∧
      List.Sublist (parseRecommendations its lim)
        (its.filterMap (fun i => (parseRecItem i).toOption))) ∧
    parseRecItem it = Except.ok ⟨pyStrip t, String.mk x,
      match it.ratingNums with
      | some r => pyStrip r
      | none => "无评分"⟩ := by
  constructor
  · intro its lim
    refine ⟨parseRecommendations_eq_filterMap its lim, ?_, ?_⟩
    · rw [parseRecommendations_eq_filterMap]
      exact le_trans (List.length_filterMap_le _ _) (List.length_take_le lim its)
    · rw [parseRecommendations_eq_filterMap]
      exact List.Sublist.filterMap _ (List.take_sublist lim its)
  · have hsegs2 : splitOnChar '/' link.data = pre ++ [x, y] := hsegs
    simp [parseRecItem, hanchor, hsegs, hsegs2, List.reverse_append]

/-- Witness for C6: a concrete related-title anchor whose href ends in
`/subject/1291841/`, with no rating node. -/
theorem recommendations_spec_witness :
    parseRecItem
        ⟨some ⟨" 教父 ", some "https://movie.douban.com/subject/1291841/"⟩,
         none⟩
      = Except.ok ⟨"教父", "1291841", "无评分"⟩ := by
  have h := recommendations_spec [] 0
    ⟨some ⟨" 教父 ", some "https://movie.douban.com/subject/1291841/"⟩, none⟩
    " 教父 " "https://movie.douban.com/subject/1291841/"
    ["https:".toList, [], "movie.douban.com".toList, "subject".toList]
    "1291841".toList [] rfl (by decide)
  exact h.2

theorem takeWhile_append_colon (k v : List Char) (h : ':' ∉ k) :
    (k ++ ':' :: v).takeWhile (fun c => c ≠ ':') = k := by
  induction k with
  | nil =>
    rw [List.nil_append, List.takeWhile_cons]
    simp
  | cons c k ih =>
    have hc : decide (c ≠ ':') = true := by
      simp only [decide_eq_true_eq]
      exact fun hh => h (hh ▸ List.mem_cons_self c k)
    rw [List.cons_append, List.takeWhile_cons]
    simp only [hc, if_true]
    rw [ih (fun hk => h (List.mem_cons_of_mem c hk))]

theorem dropWhile_append_colon (k v : List Char) (h : ':' ∉ k) :
    (k ++ ':' :: v).dropWhile (fun c => c ≠ ':') = ':' :: v := by
  induction k with
  | nil =>
    rw [List.nil_append, List.dropWhile_cons]
    simp
  | cons c k ih =>
    have hc : decide (c ≠ ':') = true := by
      simp only [decide_eq_true_eq]
      exact fun hh => h (hh ▸ List.mem_cons_self c k)
    rw [List.cons_append, List.dropWhile_cons]
    simp only [hc, if_true]
    exact ih (fun hk => h (List.mem_cons_of_mem c hk))

/-- C7: the attribute-block step of the detail parse splits the metadata
text on line breaks and folds each line into the dict; a line without a
colon contributes nothing, and a line whose stripped form decomposes as
`key ++ ":" ++ value` (first colon) adds the whitespace-trimmed pair
exactly when both trimmed halves are non-empty. -/
theorem attr_block_spec (d : Dict) (line text : String) :
    applyInfoSection d text = (pySplitLines text).foldl applyAttrLine d ∧
    (pyContains (pyStrip line) ':' = false → applyAttrLine d line = d) ∧
    (∀ kcs vcs : List Char, (pyStrip line).toList = kcs ++ ':' :: vcs →
      ':' ∉ kcs →
      applyAttrLine d line =
        if pyStrip (String.mk kcs) ≠ "" ∧ pyStrip (String.mk vcs) ≠ "" then
          dictSet d (pyStrip (String.mk kcs)) (some (pyStrip (String.mk vcs)))
        else d) := by
  refine ⟨rfl, ?_, ?_⟩
  · intro h
    unfold applyAttrLine
    rw [show lineKV line = none by rw [lineKV]; simp [h]]
  · intro kcs vcs hdec hnot
    have hcont : pyContains (pyStrip line) ':' = true := by
      rw [pyContains, hdec]
      simp
    have hb : pyBeforeColon (pyStrip line) = String.mk kcs := by
      rw [pyBeforeColon, hdec, takeWhile_append_colon kcs vcs hnot]
    have ha : pyAfterColon (pyStrip line) = String.mk vcs := by
      rw [pyAfterColon, hdec, dropWhile_append_colon kcs vcs hnot]
      rfl
    have hlkv : lineKV line =
        if pyStrip (String.mk kcs) ≠ "" ∧ pyStrip (String.mk vcs) ≠ "" then
          some (pyStrip (String.mk kcs), pyStrip (String.mk vcs))
        else none := by
      rw [lineKV]
      simp only [hcont, if_true, hb, ha]
    unfold applyAttrLine
    rw [hlkv]
    by_cases hkv : pyStrip (String.mk kcs) ≠ "" ∧ pyStrip (String.mk vcs) ≠ ""
    · rw [if_pos hkv, if_pos hkv]
    · rw [if_neg hkv, if_neg hkv]

/-- Witness for C7: a key/value line with surrounding whitespace, and a
line without a colon. -/
theorem attr_block_spec_witness :
    applyAttrLine [] " 导演: 张艺谋 " = [("导演", some "张艺谋")] ∧
    applyAttrLine [] "nocolon" = [] := by
  constructor
  · have h3 := (attr_block_spec [] " 导演: 张艺谋 " "").2.2
      "导演".toList " 张艺谋".toList (by decide) (by decide)
    rw [h3]
    decide
  · exact (attr_block_spec [] "nocolon" "").2.1 (by decide)

theorem finishDetail_ok (d : Dict) (doc : DetailDoc)
    (hposter : ∀ img, doc.poster = some img → img.src.isSome = true) :
    finishDetail d doc = Except.ok (dictSet (dictSet
      (if doc.genres ≠ [] then
        dictSet d "类型" (some (joinSlash (doc.genres.map pyStrip)))
      else d)
      "简介" (some (match doc.summary with
        | some s => pyStrip s
        | none => "无简介")))
      "海报链接" (match doc.poster with
        | some img => img.src
        | none => none)) := by
  unfold finishDetail
  rcases hp : doc.poster with _ | img
  · rfl
  · obtain ⟨s, hs⟩ := Option.isSome_iff_exists.mp (hposter img hp)
    simp [hs]

/-- C2 counterexample, two divergences.  First, a detail document whose
title node is absent but whose `#info` text contains the line `title:X`:
the attribute-block step overrides the `title` entry, so the returned
record's title is `X`, not the documented default.  Second, a detail
document whose rating node is absent (so the claim applies) and whose
poster node is present but has no `src` attribute: the subscript access
raises `KeyError('src')`, so the parse returns an error instead of any
record at all. -/
theorem detail_default_cex :
    (DetailDoc.mk none none none (some ⟨"title:X", []⟩) [] none none).h1span
      = none ∧
    parseDetailInfo "1"
        (DetailDoc.mk none none none (some ⟨"title:X", []⟩) [] none none)
      = Except.ok [("douban_id", some "1"), ("title", some "X"),
          ("rating", some "无评分"), ("votes", some "0"),
          ("简介", some "无简介"), ("海报链接", none)] ∧
    "X" ≠ "未知标题" ∧
    (DetailDoc.mk (some "t") none (some "100") none [] (some "s")
      (some ⟨none⟩)).ratingNum = none ∧
    (DetailDoc.mk (some "t") none (some "100") none [] (some "s")
      (some ⟨none⟩)).poster = some ⟨none⟩ ∧
    parseDetailInfo "1"
        (DetailDoc.mk (some "t") none (some "100") none [] (some "s")
          (some ⟨none⟩))
      = Except.error "'src'" :=
  ⟨rfl, rfl, by decide, rfl, rfl, rfl⟩

/-- C2 (amended): for a detail document whose attribute block yields no
pair keyed `title`, `rating` or `votes`, and whose poster node (when
present) has a `src` attribute, the parse returns a full record where
each of title/rating/vote-count/synopsis/poster equals its documented
default when the node is absent and is populated from the document when
present. -/
theorem detail_defaults (douban_id : String) (doc : DetailDoc)
    (hposter : ∀ img, doc.poster = some img → img.src.isSome = true)
    (hcore : ∀ sec, doc.infoSection = some sec →
      ∀ p ∈ attrPairs sec.text,
        p.1 ∉ (["title", "rating", "votes"] : List String)) :
    ∃ info, parseDetailInfo douban_id doc = Except.ok info ∧
      dictGet info "title" = some (some (match doc.h1span with
        | some t => pyStrip t
        | none => "未知标题")) ∧
      dictGet info "rating" = some (some (match doc.ratingNum with
        | some t => pyStrip t
        | none => "无评分")) ∧
      dictGet info "votes" = some (some (match doc.ratingPeople with
        | some t => pyStrip t
        | none => "0")) ∧
      dictGet info "简介" = some (some (match doc.summary with
        | some s => pyStrip s
        | none => "无简介")) ∧
      dictGet info "海报链接" = some (match doc.poster with
        | some img => img.src
        | none => none) := by
  have hinfo1 : ∀ k, k ∈ (["title", "rating", "votes"] : List String) →
      dictGet (match doc.infoSection with
        | some sec => applyInfoSection (initialInfo douban_id doc) sec.text
        | none => initialInfo douban_id doc) k
        = dictGet (initialInfo douban_id doc) k := by
    intro k hk
    rcases hsec : doc.infoSection with _ | sec
    · rfl
    · exact applyInfoSection_get_of_absent sec.text _ k
        (fun p hp heq => hcore sec hsec p hp (heq.symm ▸ hk))
  have hrun : parseDetailInfo douban_id doc
      = finishDetail (match doc.infoSection with
        | some sec => applyInfoSection (initialInfo douban_id doc) sec.text
        | none => initialInfo douban_id doc) doc := rfl
  rw [hrun, finishDetail_ok _ doc hposter]
  refine ⟨_, rfl, ?_, ?_, ?_, ?_, ?_⟩
  · rw [dictGet_dictSet_ne _ _ _ _ (by decide),
      dictGet_dictSet_ne _ _ _ _ (by decide)]
    by_cases hg : doc.genres ≠ []
    · rw [if_pos hg, dictGet_dictSet_ne _ _ _ _ (by decide),
        hinfo1 "title" (by decide)]
      rfl
    · rw [if_neg hg, hinfo1 "title" (by decide)]
      rfl
  · rw [dictGet_dictSet_ne _ _ _ _ (by decide),
      dictGet_dictSet_ne _ _ _ _ (by decide)]
    by_cases hg : doc.genres ≠ []
    · rw [if_pos hg, dictGet_dictSet_ne _ _ _ _ (by decide),
        hinfo1 "rating" (by decide)]
      rfl
    · rw [if_neg hg, hinfo1 "rating" (by decide)]
      rfl
  · rw [dictGet_dictSet_ne _ _ _ _ (by decide),
      dictGet_dictSet_ne _ _ _ _ (by decide)]
    by_cases hg : doc.genres ≠ []
    · rw [if_pos hg, dictGet_dictSet_ne _ _ _ _ (by decide),
        hinfo1 "votes" (by decide)]
      rfl
    · rw [if_neg hg, hinfo1 "votes" (by decide)]
      rfl
  · rw [dictGet_dictSet_ne _ _ _ _ (by decide), dictGet_dictSet_self]
  · rw [dictGet_dictSet_self]

/-- Witness for C2 (amended): the documented scenario — rating node and
poster node both absent, the rest present. -/
theorem detail_defaults_witness :
    ∃ info, parseDetailInfo "1292052"
        (DetailDoc.mk (some " 肖申克的救赎 ") none (some "100")
          (some ⟨"导演: 张三\n制片国家/地区: 美国", []⟩) ["剧情"]
          (some "简介文本") none)
      = Except.ok info ∧
      dictGet info "title" = some (some (match (some " 肖申克的救赎 " : Option String) with
        | some t => pyStrip t
        | none => "未知标题")) ∧
      dictGet info "rating" = some (some "无评分") ∧
      dictGet info "votes" = some (some "100") ∧
      dictGet info "简介" = some (some "简介文本") ∧
      dictGet info "海报链接" = some none := by
  obtain ⟨info, h0, h1, h2, h3, h4, h5⟩ := detail_defaults "1292052"
    (DetailDoc.mk (some " 肖申克的救赎 ") none (some "100")
      (some ⟨"导演: 张三\n制片国家/地区: 美国", []⟩) ["剧情"]
      (some "简介文本") none)
    (fun img h => by cases h)
    (by intro sec hsec
        cases hsec
        decide)
  exact ⟨info, h0, h1, h2, h3, h4, h5⟩

theorem applyRole_get_ne (roles : List (String × RoleSpan)) (d : Dict)
    (role k : String) (h : k ≠ role) :
    dictGet (applyRole roles d role) k = dictGet d k := by
  unfold applyRole
  split
  · rfl
  · split
    · rfl
    · split
      · exact dictGet_dictSet_ne d role k _ h
      · rfl

theorem applyRole_get_self (roles : List (String × RoleSpan)) (d : Dict)
    (role : String) (sp : SpanNode)
    (hrole : lookupRole roles role = some ⟨some sp⟩)
    (hcls : sp.classAttr = some ["attrs"]) :
    dictGet (applyRole roles d role) role
      = some (some (joinSlash (sp.anchors.map pyStrip))) := by
  unfold applyRole
  rw [hrole]
  simp [hcls, dictGet_dictSet_self]

/-- C8: for each of the three role keys (director, writer, cast), when
the role's label span exists in the `#info` container and its next
sibling span has class list exactly `["attrs"]`, the final record maps
the role to the stripped linked names joined with `" / "` — regardless
of what the line-splitting attribute block put there (step 5 overrides
step 4). -/
theorem role_override_spec (douban_id : String) (doc : DetailDoc)
    (sec : InfoSec) (r : String) (sp : SpanNode)
    (hsec : doc.infoSection = some sec)
    (hr : r ∈ (["导演", "编剧", "主演"] : List String))
    (hrole : lookupRole sec.roles r = some ⟨some sp⟩)
    (hcls : sp.classAttr = some ["attrs"])
    (hposter : ∀ img, doc.poster = some img → img.src.isSome = true) :
    ∃ info, parseSimpleDetailInfo douban_id doc = Except.ok info ∧
      dictGet info r = some (some (joinSlash (sp.anchors.map pyStrip))) := by
  have hrun : parseSimpleDetailInfo douban_id doc
      = finishDetail (roleOverrides
          (applyInfoSection (initialInfo douban_id doc) sec.text) sec.roles)
          doc := by
    unfold parseSimpleDetailInfo
    rw [hsec]
  rw [hrun, finishDetail_ok _ doc hposter]
  refine ⟨_, rfl, ?_⟩
  have hfold : ∀ d : Dict, roleOverrides d sec.roles
      = applyRole sec.roles
          (applyRole sec.roles (applyRole sec.roles d "导演") "编剧")
          "主演" := fun d => rfl
  have hne : ∀ (dd : Dict) (k : String), k ≠ "类型" →
      dictGet (if doc.genres ≠ [] then
        dictSet dd "类型" (some (joinSlash (doc.genres.map pyStrip)))
      else dd) k = dictGet dd k := by
    intro dd k hk
    by_cases hg : doc.genres ≠ []
    · rw [if_pos hg]
      exact dictGet_dictSet_ne _ _ _ _ hk
    · rw [if_neg hg]
  have hr3 : r = "导演" ∨ r = "编剧" ∨ r = "主演" := by simpa using hr
  rcases hr3 with rfl | rfl | rfl
  · rw [dictGet_dictSet_ne _ _ _ _ (by decide),
      dictGet_dictSet_ne _ _ _ _ (by decide), hne _ _ (by decide), hfold,
      applyRole_get_ne _ _ _ _ (by decide),
      applyRole_get_ne _ _ _ _ (by decide)]
    exact applyRole_get_self sec.roles _ _ sp hrole hcls
  · rw [dictGet_dictSet_ne _ _ _ _ (by decide),
      dictGet_dictSet_ne _ _ _ _ (by decide), hne _ _ (by decide), hfold,
      applyRole_get_ne _ _ _ _ (by decide)]
    exact applyRole_get_self sec.roles _ _ sp hrole hcls
  · rw [dictGet_dictSet_ne _ _ _ _ (by decide),
      dictGet_dictSet_ne _ _ _ _ (by decide), hne _ _ (by decide), hfold]
    exact applyRole_get_self sec.roles _ _ sp hrole hcls

/-- Witness for C8: a document whose `#info` text would set the director
entry to `错误值` through the line split, while the label-sibling span
holds two linked names; the final record joins the stripped names. -/
theorem role_override_spec_witness :
    ∃ info, parseSimpleDetailInfo "1292052"
        (DetailDoc.mk (some "t") (some "9.7") (some "100")
          (some ⟨"导演: 错误值",
            [("导演", ⟨some ⟨some ["attrs"], [" 弗兰克 ", "德拉邦特"]⟩⟩)]⟩)
          [] none none)
      = Except.ok info ∧
      dictGet info "导演"
        = some (some (joinSlash ([" 弗兰克 ", "德拉邦特"].map pyStrip))) :=
  role_override_spec "1292052" _
    ⟨"导演: 错误值", [("导演", ⟨some ⟨some ["attrs"], [" 弗兰克 ", "德拉邦特"]⟩⟩)]⟩
    "导演" ⟨some ["attrs"], [" 弗兰克 ", "德拉邦特"]⟩
    rfl (by decide) rfl rfl (fun img h => by cases h)

/-- C10: rating analysis never raises — a string that `float()` rejects
yields the `无法评估` payload with `score = None`; a parsed finite score
is echoed back and classified as 优秀/良好/一般/较差 by the fixed
thresholds 8.5 / 7.0 / 5.0. -/
theorem analyze_rating_spec (s : String) :
    (pyFloatOf s = none →
      analyze_rating s = ⟨"无法评估", "评分数据无效", none⟩) ∧
    (∀ d : DecVal, pyFloatOf s = some (PyFloat.fin d) →
      (analyze_rating s).score = some (PyFloat.fin d) ∧
      (analyze_rating s).level =
        if (17 : ℚ) / 2 ≤ d.toRat then "优秀"
        else if (7 : ℚ) ≤ d.toRat then "良好"
        else if (5 : ℚ) ≤ d.toRat then "一般"
        else "较差") := by
  constructor
  · intro h
    rw [analyze_rating, h]
  · intro d h
    rw [analyze_rating, h]
    constructor <;>
    · simp only [pfGe, decide_eq_true_eq]
      split_ifs <;> rfl

/-- Witness for C10: the unparsable string `x` and the score `8.5`. -/
theorem analyze_rating_spec_witness :
    analyze_rating "x" = ⟨"无法评估", "评分数据无效", none⟩ ∧
    (analyze_rating "8.5").score = some (PyFloat.fin ⟨85, -1⟩) :=
  ⟨(analyze_rating_spec "x").1 rfl,
   ((analyze_rating_spec "8.5").2 ⟨85, -1⟩ (by decide)).1⟩


theorem skipWs_cons_false (c : Char) (cs : List Char) (h : wsChar c = false) :
    skipWs (c :: cs) = c :: cs := by
  simp [skipWs, List.dropWhile_cons, h]

theorem skipWs_cons_true (c : Char) (cs : List Char) (h : wsChar c = true) :
    skipWs (c :: cs) = skipWs cs := by
  simp [skipWs, List.dropWhile_cons, h]

theorem skipWs_nspaces (n : Nat) (cs : List Char) :
    skipWs (nspaces n ++ cs) = skipWs cs := by
  induction n with
  | zero => rfl
  | succ m ih =>
    rw [nspaces, List.replicate_succ, List.cons_append,
      skipWs_cons_true ' ' _ rfl]
    exact ih

theorem skipWs_idem (cs : List Char) : skipWs (skipWs cs) = skipWs cs := by
  induction cs with
  | nil => rfl
  | cons c cs ih =>
    rcases h : wsChar c with _ | _
    · rw [skipWs_cons_false c cs h, skipWs_cons_false c cs h]
    · rw [skipWs_cons_true c cs h, ih]

theorem hexVal_hexDigit : ∀ m : Nat, m < 16 → hexVal (hexDigit m) = some m := by
  decide

theorem scanStr_quote (acc rest : List Char) :
    scanStr acc ('"' :: rest) = some (String.mk acc.reverse, rest) := by
  rw [scanStr, if_pos rfl]

theorem scanStr_backslash (acc rest : List Char) :
    scanStr acc ('\\' :: rest) = scanEsc acc rest := by
  rw [scanStr, if_neg (by decide), if_pos rfl]

theorem scanStr_raw (acc : List Char) (c : Char) (rest : List Char)
    (h1 : ¬ c = '"') (h2 : ¬ c = '\\') (h3 : 32 ≤ c.toNat) :
    scanStr acc (c :: rest) = scanStr (c :: acc) rest := by
  rw [scanStr, if_neg h1, if_neg h2, if_pos h3]

theorem scanEsc_u (acc rest2 : List Char) :
    scanEsc acc ('u' :: rest2) = scanHex acc rest2 := by
  rw [scanEsc, if_pos rfl]

theorem scanEsc_simple (acc : List Char) (e c2 : Char) (rest2 : List Char)
    (he : ¬ e = 'u') (hu : unescChar e = some c2) :
    scanEsc acc (e :: rest2) = scanStr (c2 :: acc) rest2 := by
  rw [scanEsc, if_neg he, hu]

theorem scanHex_digits (acc : List Char) (h1 h2 h3 h4 : Char) (X : List Char)
    (a b c2 d2 : Nat) (e1 : hexVal h1 = some a) (e2 : hexVal h2 = some b)
    (e3 : hexVal h3 = some c2) (e4 : hexVal h4 = some d2) :
    scanHex acc (h1 :: h2 :: h3 :: h4 :: X) =
      (if ((a * 16 + b) * 16 + c2) * 16 + d2 < 55296 then
        scanStr (Char.ofNat (((a * 16 + b) * 16 + c2) * 16 + d2) :: acc) X
      else none) := by
  rw [scanHex, e1, e2, e3, e4]

/-- Decoding one serialized character: the scanner consumes the escape
block of `c` and pushes `c`. -/
theorem scanStr_esc_step (c : Char) (acc X : List Char) :
    scanStr acc (escChar c ++ X) = scanStr (c :: acc) X := by
  by_cases h1 : c = '"'
  · subst h1
    rw [show escChar '"' = ['\\', '"'] from by decide, List.cons_append,
      List.cons_append, List.nil_append, scanStr_backslash,
      scanEsc_simple _ _ '"' _ (by decide) (by decide)]
  by_cases h2 : c = '\\'
  · subst h2
    rw [show escChar '\\' = ['\\', '\\'] from by decide, List.cons_append,
      List.cons_append, List.nil_append, scanStr_backslash,
      scanEsc_simple _ _ '\\' _ (by decide) (by decide)]
  by_cases h3 : c = '\n'
  · subst h3
    rw [show escChar '\n' = ['\\', 'n'] from by decide, List.cons_append,
      List.cons_append, List.nil_append, scanStr_backslash,
      scanEsc_simple _ _ '\n' _ (by decide) (by decide)]
  by_cases h4 : c = '\t'
  · subst h4
    rw [show escChar '\t' = ['\\', 't'] from by decide, List.cons_append,
      List.cons_append, List.nil_append, scanStr_backslash,
      scanEsc_simple _ _ '\t' _ (by decide) (by decide)]
  by_cases h5 : c = '\r'
  · subst h5
    rw [show escChar '\r' = ['\\', 'r'] from by decide, List.cons_append,
      List.cons_append, List.nil_append, scanStr_backslash,
      scanEsc_simple _ _ '\r' _ (by decide) (by decide)]
  by_cases h6 : c.toNat = 8
  · have hc : c = Char.ofNat 8 := by rw [← Char.ofNat_toNat c, h6]
    subst hc
    rw [show escChar (Char.ofNat 8) = ['\\', 'b'] from by decide,
      List.cons_append, List.cons_append, List.nil_append, scanStr_backslash,
      scanEsc_simple _ _ (Char.ofNat 8) _ (by decide) (by decide)]
  by_cases h7 : c.toNat = 12
  · have hc : c = Char.ofNat 12 := by rw [← Char.ofNat_toNat c, h7]
    subst hc
    rw [show escChar (Char.ofNat 12) = ['\\', 'f'] from by decide,
      List.cons_append, List.cons_append, List.nil_append, scanStr_backslash,
      scanEsc_simple _ _ (Char.ofNat 12) _ (by decide) (by decide)]
  by_cases h8 : c.toNat < 32
  · have hesc : escChar c =
        ['\\', 'u', '0', '0', hexDigit (c.toNat / 16),
          hexDigit (c.toNat % 16)] := by
      rw [escChar]
      simp [h1, h2, h3, h4, h5, h6, h7, h8]
    rw [hesc, List.cons_append, List.cons_append, List.cons_append,
      List.cons_append, List.cons_append, List.cons_append, List.nil_append,
      scanStr_backslash, scanEsc_u,
      scanHex_digits _ _ _ _ _ _ 0 0 (c.toNat / 16) (c.toNat % 16)
        (by decide) (by decide) (hexVal_hexDigit _ (by omega))
        (hexVal_hexDigit _ (by omega)),
      show ((0 * 16 + 0) * 16 + c.toNat / 16) * 16 + c.toNat % 16 = c.toNat
        from by omega,
      if_pos (by omega), Char.ofNat_toNat]
  · have hesc : escChar c = [c] := by
      rw [escChar]
      simp [h1, h2, h3, h4, h5, h6, h7, h8]
    rw [hesc, List.cons_append, List.nil_append,
      scanStr_raw _ _ _ h1 h2 (by omega)]

/-- Scanning the serialized body of `s` followed by the closing quote
recovers `s`. -/
theorem scanStr_append (cs : List Char) : ∀ (acc rest : List Char),
    scanStr acc (cs.flatMap escChar ++ '"' :: rest)
      = some (String.mk (acc.reverse ++ cs), rest) := by
  induction cs with
  | nil =>
    intro acc rest
    rw [List.flatMap_nil, List.nil_append, scanStr_quote]
    simp
  | cons c cs ih =>
    intro acc rest
    rw [List.flatMap_cons, List.append_assoc, scanStr_esc_step, ih (c :: acc)]
    simp

theorem parseVal_skipWs (f : Nat) (cs : List Char) :
    parseVal (f + 1) cs = parseVal (f + 1) (skipWs cs) := by
  rw [parseVal, parseVal, skipWs_idem]

theorem parseMembers_skipWs (f : Nat) (cs : List Char) :
    parseMembers (f + 1) cs = parseMembers (f + 1) (skipWs cs) := by
  rw [parseMembers, parseMembers, skipWs_idem]

theorem jvalSize_pos : ∀ v : Jval, 1 ≤ v.size := by
  intro v
  cases v <;> simp only [Jval.size] <;> omega

theorem jobjSize_pos : ∀ o : JObj, 1 ≤ o.size := by
  intro o
  cases o <;> simp only [JObj.size] <;> omega

theorem parseVal_str (f : Nat) (X : List Char) (s : String) (rest : List Char)
    (hscan : scanStr [] X = some (s, rest)) :
    parseVal (f + 1) ('"' :: X) = some (Jval.str s, rest) := by
  simp only [parseVal,
    show skipWs ('"' :: X) = '"' :: X from skipWs_cons_false _ _ (by decide),
    hscan, Option.map_some']

theorem parseVal_obj_nil (f : Nat) (X R : List Char)
    (h : skipWs X = '}' :: R) :
    parseVal (f + 1) ('{' :: X) = some (Jval.obj JObj.nil, R) := by
  simp only [parseVal,
    show skipWs ('{' :: X) = '{' :: X from skipWs_cons_false _ _ (by decide),
    h]

theorem parseVal_obj_members (f : Nat) (X Q : List Char)
    (h : skipWs X = '"' :: Q) :
    parseVal (f + 1) ('{' :: X)
      = (parseMembers f ('"' :: Q)).map (fun p => (Jval.obj p.1, p.2)) := by
  simp only [parseVal,
    show skipWs ('{' :: X) = '{' :: X from skipWs_cons_false _ _ (by decide),
    h]
  split
  · rename_i r2 heq
    simp at heq
  · rfl

theorem parseMembers_step_last (f : Nat) (Q : List Char) (k : String)
    (r1 r2 : List Char) (v : Jval) (r3 r4 : List Char)
    (hscan : scanStr [] Q = some (k, r1))
    (hcolon : skipWs r1 = ':' :: r2)
    (hval : parseVal f r2 = some (v, r3))
    (hbrace : skipWs r3 = '}' :: r4) :
    parseMembers (f + 1) ('"' :: Q) = some (JObj.cons k v JObj.nil, r4) := by
  simp only [parseMembers,
    show skipWs ('"' :: Q) = '"' :: Q from skipWs_cons_false _ _ (by decide),
    hscan, hcolon, hval, hbrace]

theorem parseMembers_step_comma (f : Nat) (Q : List Char) (k : String)
    (r1 r2 : List Char) (v : Jval) (r3 r4 : List Char)
    (hscan : scanStr [] Q = some (k, r1))
    (hcolon : skipWs r1 = ':' :: r2)
    (hval : parseVal f r2 = some (v, r3))
    (hcomma : skipWs r3 = ',' :: r4) :
    parseMembers (f + 1) ('"' :: Q)
      = (parseMembers f r4).map (fun p => (JObj.cons k v p.1, p.2)) := by
  simp only [parseMembers,
    show skipWs ('"' :: Q) = '"' :: Q from skipWs_cons_false _ _ (by decide),
    hscan, hcolon, hval, hcomma]

theorem skipWs_serItems (i : Nat) (k : String) (v : Jval) (r : JObj)
    (T : List Char) :
    skipWs (serItems i k v r ++ T)
      = '"' :: (k.toList.flatMap escChar
          ++ '"' :: (':' :: ' ' :: (serVal i v ++ (serTail i r ++ T)))) := by
  rw [serItems, serStr, List.append_assoc, skipWs_nspaces, List.append_assoc,
    List.cons_append, skipWs_cons_false _ _ (by decide)]
  simp [List.append_assoc]

/-- Loading recovers every serialized value: the fuelled loader, run on
the serializer's output followed by any rest, returns exactly the value
and the rest (and member lists likewise, inside their closing frame). -/
theorem parse_ser (fuel : Nat) :
    (∀ (v : Jval) (ind : Nat) (rest : List Char), Jval.size v ≤ fuel →
      parseVal fuel (serVal ind v ++ rest) = some (v, rest)) ∧
    (∀ (k : String) (v : Jval) (r : JObj) (ind ind2 : Nat) (rest : List Char),
      Jval.size v + JObj.size r ≤ fuel →
      parseMembers fuel
          (serItems ind2 k v r ++ '\n' :: (nspaces ind ++ ('}' :: rest)))
        = some (JObj.cons k v r, rest)) := by
  induction fuel with
  | zero =>
    constructor
    · intro v ind rest h
      exact absurd h (by have := jvalSize_pos v; omega)
    · intro k v r ind ind2 rest h
      exact absurd h
        (by have := jvalSize_pos v; have := jobjSize_pos r; omega)
  | succ f ih =>
    constructor
    · intro v ind rest hsz
      cases v with
      | str s =>
        have hser : serVal ind (Jval.str s) ++ rest
            = '"' :: (s.toList.flatMap escChar ++ '"' :: rest) := by
          rw [serVal, serStr]
          simp [List.append_assoc]
        rw [hser, parseVal_str f _ s rest
          ((scanStr_append s.toList [] rest).trans rfl)]
      | obj o =>
        cases o with
        | nil =>
          have hser : serVal ind (Jval.obj JObj.nil) ++ rest
              = '{' :: ('}' :: rest) := by
            rw [serVal]
            rfl
          rw [hser, parseVal_obj_nil f ('}' :: rest) rest
            (skipWs_cons_false _ _ (by decide))]
        | cons k v r =>
          have hser : serVal ind (Jval.obj (JObj.cons k v r)) ++ rest
              = '{' :: ('\n' :: (serItems (ind + 2) k v r
                  ++ '\n' :: (nspaces ind ++ ('}' :: rest)))) := by
            rw [serVal]
            simp [List.append_assoc]
          have hskipX : skipWs ('\n' :: (serItems (ind + 2) k v r
                  ++ '\n' :: (nspaces ind ++ ('}' :: rest))))
              = '"' :: (k.toList.flatMap escChar
                  ++ '"' :: (':' :: ' ' :: (serVal (ind + 2) v
                    ++ (serTail (ind + 2) r
                      ++ '\n' :: (nspaces ind ++ ('}' :: rest)))))) := by
            rw [skipWs_cons_true '\n' _ (by decide), skipWs_serItems]
          rw [hser, parseVal_obj_members f _ _ hskipX]
          simp only [Jval.size, JObj.size] at hsz
          have hf : ∃ f2, f = f2 + 1 :=
            ⟨f - 1, by
              have := jvalSize_pos v; have := jobjSize_pos r; omega⟩
          obtain ⟨f2, rfl⟩ := hf
          have hmem : parseMembers (f2 + 1)
              ('"' :: (k.toList.flatMap escChar
                ++ '"' :: (':' :: ' ' :: (serVal (ind + 2) v
                  ++ (serTail (ind + 2) r
                    ++ '\n' :: (nspaces ind ++ ('}' :: rest)))))))
              = parseMembers (f2 + 1) (serItems (ind + 2) k v r
                  ++ '\n' :: (nspaces ind ++ ('}' :: rest))) := by
            rw [parseMembers_skipWs f2 (serItems (ind + 2) k v r
              ++ '\n' :: (nspaces ind ++ ('}' :: rest))), skipWs_serItems]
          rw [hmem, ih.2 k v r ind (ind + 2) rest (by omega)]
          rfl
    · intro k v r ind ind2 rest hsz
      rw [parseMembers_skipWs f _, skipWs_serItems]
      have hvp := jvalSize_pos v
      have hrp := jobjSize_pos r
      have hf : ∃ f2, f = f2 + 1 := ⟨f - 1, by omega⟩
      obtain ⟨f2, rfl⟩ := hf
      have hval : parseVal (f2 + 1) (' ' :: (serVal ind2 v
            ++ (serTail ind2 r ++ '\n' :: (nspaces ind ++ ('}' :: rest)))))
          = some (v, serTail ind2 r
              ++ '\n' :: (nspaces ind ++ ('}' :: rest))) := by
        rw [parseVal_skipWs, skipWs_cons_true ' ' _ (by decide), ← parseVal_skipWs]
        exact ih.1 v ind2 _ (by omega)
      cases r with
      | nil =>
        rw [show serTail ind2 JObj.nil = [] from by rw [serTail], List.nil_append]
          at hval ⊢
        exact parseMembers_step_last (f2 + 1) _ k _ _ v _ rest
          ((scanStr_append k.toList [] _).trans rfl)
          (skipWs_cons_false _ _ (by decide)) hval
          (by rw [skipWs_cons_true '\n' _ (by decide), skipWs_nspaces,
            skipWs_cons_false _ _ (by decide)])
      | cons k2 v2 r2 =>
        rw [show serTail ind2 (JObj.cons k2 v2 r2)
            = ',' :: ('\n' :: serItems ind2 k2 v2 r2) from by rw [serTail],
          List.cons_append, List.cons_append] at hval ⊢
        rw [parseMembers_step_comma (f2 + 1) _ k _ _ v _ _
          ((scanStr_append k.toList [] _).trans rfl)
          (skipWs_cons_false _ _ (by decide)) hval
          (skipWs_cons_false _ _ (by decide))]
        have hrec : parseMembers (f2 + 1)
            ('\n' :: (serItems ind2 k2 v2 r2
              ++ '\n' :: (nspaces ind ++ ('}' :: rest))))
            = some (JObj.cons k2 v2 r2, rest) := by
          rw [parseMembers_skipWs, skipWs_cons_true '\n' _ (by decide),
            ← parseMembers_skipWs]
          exact ih.2 k2 v2 r2 ind ind2 rest
            (by simp only [JObj.size] at hsz; omega)
        rw [hrec]
        rfl

/-- C9: the artifact filename follows the `movie_{id}_{timestamp}.json`
pattern (the timestamp component being the process-wide value, so two
saves in one run produce names differing exactly in the identifier);
loading the serialized artifact returns a structurally identical value;
and serialization leaves every non-control, non-quote, non-backslash
character (in particular all multi-byte characters) unescaped. -/
theorem save_roundtrip_spec (id1 id2 ts : String) (v : Jval) (fuel : Nat)
    (hfuel : Jval.size v ≤ fuel) :
    saveFilename id1 ts = "movie_" ++ id1 ++ "_" ++ ts ++ ".json" ∧
    (saveFilename id1 ts = saveFilename id2 ts ↔ id1 = id2) ∧
    parseVal fuel (jserialize v).toList = some (v, []) ∧
    (∀ c : Char, 32 ≤ c.toNat → ¬ c = '"' → ¬ c = '\\' →
      escChar c = [c]) := by
  refine ⟨rfl, ⟨?_, fun h => by rw [h]⟩, ?_, ?_⟩
  · intro h
    have h2 := congrArg String.data h
    simp only [saveFilename, String.data_append] at h2
    have h3 := List.append_cancel_right h2
    have h4 := List.append_cancel_right h3
    have h5 := List.append_cancel_right h4
    have h6 := List.append_cancel_left h5
    exact String.ext h6
  · have h := (parse_ser fuel).1 v 0 [] hfuel
    rw [List.append_nil] at h
    exact h
  · intro c hge hq hbs
    have e3 : ¬ c = '\n' := fun hh => by subst hh; exact absurd hge (by decide)
    have e4 : ¬ c = '\t' := fun hh => by subst hh; exact absurd hge (by decide)
    have e5 : ¬ c = '\r' := fun hh => by subst hh; exact absurd hge (by decide)
    have e6 : ¬ c.toNat = 8 := by omega
    have e7 : ¬ c.toNat = 12 := by omega
    have e8 : ¬ c.toNat < 32 := by omega
    rw [escChar]
    simp [hq, hbs, e3, e4, e5, e6, e7, e8]

/-- Witness for C9: a concrete artifact with multi-byte content
round-trips through the serializer and loader. -/
theorem save_roundtrip_spec_witness :
    Jval.size (movieData [("导演", "张艺谋")] "评论文本" "推荐文本"
      "2024-01-01 00:00:00") ≤ 64 ∧
    parseVal 64 (jserialize (movieData [("导演", "张艺谋")] "评论文本"
        "推荐文本" "2024-01-01 00:00:00")).toList
      = some (movieData [("导演", "张艺谋")] "评论文本" "推荐文本"
          "2024-01-01 00:00:00", []) :=
  ⟨by decide, (save_roundtrip_spec "1" "2" "t" _ 64 (by decide)).2.2.1⟩
